import Mathlib

/-!
# Shallow embedding of the PDF → Markdown → translation pipeline

This file embeds the core logic of `03_pdf2img2md2zh.py` (the per-page
conversion cache, the parallel page-image exporter, the rasterization-skip
check, the staleness detector for the translated artifact, the per-unit
orchestration of `process_single_pdf`, and the resume-mode batch loop of
`workflow`) as pure Lean functions, and proves or refutes the frozen claims
about that code.

External collaborators (the OCR model, the markdown formatter, the identity
analyzer, the translator) are modelled as oracle inputs; the filesystem state
of one work unit (per-page markdown artifacts, the conversion log, the
translated file) is modelled explicitly as `Option String` values.
-/

set_option autoImplicit false
set_option maxRecDepth 100000

namespace Pdf2Md

universe u

/-! ## String helpers

`py_strip` models Python's `str.strip()` (drop leading and trailing
whitespace) and `py_split_nl_list` models `str.split('\n')`, both written by
structural recursion over the character list so that concrete instances
reduce inside the kernel.

`nonBlankLines` models Python's
`len([line for line in s.split('\n') if line.strip()])` used for both the
Japanese aggregate and the Chinese translation in `process_single_pdf`
(lines 474-475); `review_line_count` models the raw `len(s.split('\n'))`
used by `review_workflow` (lines 664, 675). -/

def py_strip_list (l : List Char) : List Char :=
  ((l.dropWhile Char.isWhitespace).reverse.dropWhile Char.isWhitespace).reverse

def py_strip (s : String) : String :=
  ⟨py_strip_list s.data⟩

def py_split_nl_list : List Char → List (List Char)
  | [] => [[]]
  | c :: rest =>
    if c = '\n' then [] :: py_split_nl_list rest
    else
      match py_split_nl_list rest with
      | [] => [[c]]
      | g :: gs => (c :: g) :: gs

def nonBlankLines (s : String) : Nat :=
  ((py_split_nl_list s.data).filter (fun l => !(py_strip_list l).isEmpty)).length

def review_line_count (s : String) : Nat :=
  (py_split_nl_list s.data).length

/-- Substring test on lists of characters, modelling Python's
`needle in hay` containment test. -/
def listHasSub (needle : List Char) : List Char → Bool
  | [] => needle.isEmpty
  | c :: rest => needle.isPrefixOf (c :: rest) || listHasSub needle rest

/-- `strHasSub hay needle` models Python's `needle in hay`. -/
def strHasSub (hay needle : String) : Bool :=
  listHasSub needle.data hay.data

/-! ## Page Conversion Cache (`process_single_pdf`, lines 387-426)

One page of a work unit is described by its persisted markdown artifact
(`none` = file absent, `some c` = file exists with content `c`) and by a
`PageOracle` giving the results the external collaborators would return for
this page on this run:
* `ocr = none` models `perform_ocr` returning `None` (OCR failure),
* `fmt = .exn` models an exception raised while formatting or writing
  (the `except` branch at line 421),
* `fmt = .ok s` models `format_to_markdown` returning the string `s`. -/

inductive FmtRes : Type
  | ok (s : String)
  | exn

structure PageOracle : Type where
  ocr : Option String
  fmt : FmtRes

/-- The loop accumulator of `process_single_pdf`: `md_content`,
`need_translate` and `ocr_error_count` (lines 383-385). -/
structure LoopAcc : Type where
  md_content : String
  need_translate : Bool
  ocr_error_count : Nat
deriving DecidableEq

/-- Which external calls were issued for one page. -/
structure PageTrace : Type where
  ocr_called : Bool
  fmt_called : Bool
deriving DecidableEq

/-- `need_process` for one page (lines 391-402): a page must be
(re-)converted unless its persisted artifact exists and is non-empty after
trimming whitespace. -/
def need_process : Option String → Bool
  | some c => py_strip c == ""
  | none => true

/-- One iteration of the page loop of `process_single_pdf` (lines 387-426).
Returns the updated accumulator, the persisted artifact for this page after
the iteration, and the trace of external calls issued.

* artifact present and non-empty after trimming: reuse its trimmed content,
  no external call (lines 396-399);
* artifact present but empty after trimming: delete it (line 401) and fall
  through to processing;
* processing: call `perform_ocr`; on `None` increment the error counter and
  continue (lines 407-411); otherwise call `format_to_markdown`; a non-empty
  result is persisted and appended and sets `need_translate` (lines 413-420);
  an exception increments the error counter and removes any partial artifact
  (lines 421-426). -/
def pageStep (art : Option String) (o : PageOracle) (acc : LoopAcc) :
    LoopAcc × Option String × PageTrace :=
  if need_process art then
    match o.ocr with
    | none =>
      ({ acc with ocr_error_count := acc.ocr_error_count + 1 }, none, ⟨true, false⟩)
    | some _ =>
      match o.fmt with
      | .exn =>
        ({ acc with ocr_error_count := acc.ocr_error_count + 1 }, none, ⟨true, true⟩)
      | .ok s =>
        if s = "" then (acc, none, ⟨true, true⟩)
        else
          ({ acc with
              md_content := acc.md_content ++ s ++ "\n\n"
              need_translate := true },
            some s, ⟨true, true⟩)
  else
    match art with
    | some c =>
      ({ acc with md_content := acc.md_content ++ py_strip c ++ "\n\n" },
        some c, ⟨false, false⟩)
    | none => (acc, none, ⟨false, false⟩)

/-- The page loop of `process_single_pdf` over the naturally sorted page
images (line 387): pages are visited in ascending index order, threading the
accumulator. Returns the final accumulator, the artifacts after the run and
the per-page call traces, in page order. -/
def pageLoop : List (Option String × PageOracle) → LoopAcc →
    LoopAcc × List (Option String) × List PageTrace
  | [], acc => (acc, [], [])
  | (art, o) :: ps, acc =>
    let r := pageStep art o acc
    let rest := pageLoop ps r.1
    (rest.1, r.2.1 :: rest.2.1, r.2.2 :: rest.2.2)

/-! Closed forms of the per-page effect, used to characterise the loop. -/

/-- What one page appends to `md_content`. -/
def page_contribution (art : Option String) (o : PageOracle) : String :=
  if need_process art then
    match o.ocr with
    | none => ""
    | some _ =>
      match o.fmt with
      | .exn => ""
      | .ok s => if s = "" then "" else s ++ "\n\n"
  else
    match art with
    | some c => py_strip c ++ "\n\n"
    | none => ""

/-- Whether one page increments `ocr_error_count`. -/
def page_fails (art : Option String) (o : PageOracle) : Bool :=
  need_process art &&
    (match o.ocr with
     | none => true
     | some _ =>
       match o.fmt with
       | .exn => true
       | .ok _ => false)

/-- Whether one page is freshly converted with a non-empty formatted result
(the only way the loop sets `need_translate`, line 420). -/
def page_fresh (art : Option String) (o : PageOracle) : Bool :=
  need_process art &&
    (match o.ocr with
     | none => false
     | some _ =>
       match o.fmt with
       | .exn => false
       | .ok s => !(s == ""))

/-- The artifact persisted for one page after the iteration. -/
def page_artifact_after (art : Option String) (o : PageOracle) : Option String :=
  if need_process art then
    match o.ocr with
    | none => none
    | some _ =>
      match o.fmt with
      | .exn => none
      | .ok s => if s = "" then none else some s
  else art

/-- The trace of external calls for one page. -/
def page_trace (art : Option String) (o : PageOracle) : PageTrace :=
  ⟨need_process art, need_process art && o.ocr.isSome⟩

/-! ## Staleness Detector

`line_diff_percent` is the exact formula of `process_single_pdf` line 478:
`abs(zh_lines - jp_lines) / max(zh_lines + 1, jp_lines + 1) * 100`, over the
non-blank line counts `zh_lines` and `jp_lines`. The comparison threshold at
line 479 is the literal `15`.

`review_needs_translation` models `review_workflow` lines 669-684: raw line
counts (`len(content.split('\n'))`), formula
`abs(zh_line_count - jp_line_count) / jp_line_count * 100`, literal
threshold `20`. -/

def line_diff_percent (zh_lines jp_lines : Nat) : ℚ :=
  |(zh_lines : ℚ) - (jp_lines : ℚ)| /
    max ((zh_lines : ℚ) + 1) ((jp_lines : ℚ) + 1) * 100

def review_needs_translation (zh_content : Option String) (jp_line_count : Nat) : Bool :=
  match zh_content with
  | none => true
  | some z =>
    if 0 < jp_line_count then
      if |(review_line_count z : ℚ) - (jp_line_count : ℚ)| /
          (jp_line_count : ℚ) * 100 ≤ 20 then false
      else true
    else true

/-! ## Conversion Orchestrator (`process_single_pdf`, lines 348-504)

The body of the outer `try` is modelled as a total function from the unit's
on-disk state and oracle answers to an `Outcome` plus the observable trace.
`AnalyzeRes` models `analyze_admission_info` together with the subsequent
record processing: `noJson` is a `None` return (no parseable JSON,
lines 449-455), `badRecord` is a JSON answer whose field access raises
(caught at line 502, plain `False` return with no rename), and `fields`
is a well-formed record. -/

inductive AnalyzeRes : Type
  | noJson
  | badRecord
  | fields (name date : String)

/-- Terminal disposition of one work unit in one run: the directory is
renamed to a quarantine bucket (carrying the literal suffix appended to the
folder name), renamed by extracted identity, or left in place with a `False`
return (the `except` at line 502). -/
inductive Outcome : Type
  | quarantined (sufx : String)
  | renamed (name date : String)
  | error_return_false
deriving DecidableEq

/-- On-disk state and oracle answers for one run over one work unit:
per-page artifact plus collaborator answers, the identity-analysis answer,
and the persisted translated artifact (`{base}_中文.md`), if any. -/
structure UnitInput : Type where
  pages : List (Option String × PageOracle)
  analyze : AnalyzeRes
  zh_artifact : Option String

/-- Result of one run of the `try` body of `process_single_pdf`. -/
structure UnitResult : Type where
  outcome : Outcome
  acc : LoopAcc
  artifacts : List (Option String)
  page_traces : List PageTrace
  analyze_called : Bool
  translate_called : Bool

/-- The `try` body of `process_single_pdf` (lines 348-504), after
rasterization:
* run the page loop (lines 380-426);
* if `ocr_error_count == len(image_files)`, rename to `_ocr_failed` and
  return (lines 428-435);
* if the aggregate is blank, rename to `_no_content` (lines 437-444);
* analyze; `None` renames to `_can_not_analyze` (lines 448-455);
* otherwise re-save the aggregate, decide `need_translate` by the existing
  translated artifact and the line-delta check with threshold 15
  (lines 468-485), translate if needed (lines 487-493), then rename by the
  extracted identity (lines 495-501); an error while handling the record
  returns `False` with no rename (lines 502-504). -/
def process_single_pdf (u : UnitInput) : UnitResult :=
  let r := pageLoop u.pages ⟨"", false, 0⟩
  let acc := r.1
  if acc.ocr_error_count = u.pages.length then
    ⟨.quarantined "_ocr_failed", acc, r.2.1, r.2.2, false, false⟩
  else if py_strip acc.md_content = "" then
    ⟨.quarantined "_no_content", acc, r.2.1, r.2.2, false, false⟩
  else
    match u.analyze with
    | .noJson => ⟨.quarantined "_can_not_analyze", acc, r.2.1, r.2.2, true, false⟩
    | .badRecord => ⟨.error_return_false, acc, r.2.1, r.2.2, true, false⟩
    | .fields name date =>
      let jp_lines := nonBlankLines acc.md_content
      let nt :=
        match u.zh_artifact with
        | some z =>
          if line_diff_percent (nonBlankLines z) jp_lines > 15 then true
          else acc.need_translate
        | none => true
      ⟨.renamed name date, acc, r.2.1, r.2.2, true, nt⟩

/-- The Python return value of the whole `process_single_pdf` call for a
given outcome: `True` only on the renamed-by-identity path (line 501). -/
def return_value : Outcome → Bool
  | .renamed _ _ => true
  | _ => false

/-! ## Rasterization skip (`process_single_pdf`, lines 358-378)

`need_convert` models lines 358-366: the log state is `none` when
`pdf2md.log` does not exist and `some content` otherwise. Conversion is
skipped only when running in resume mode, the log file exists, and its
content contains the string `"Conversion completed"`. `mkConversionLog` is
the content written at lines 375-378 after a successful conversion. -/

def need_convert (resume_mode : Bool) (log : Option String) : Bool :=
  match log with
  | none => true
  | some content => !(resume_mode && strHasSub content "Conversion completed")

def mkConversionLog (pdf_path : String) (total_pages : Nat) : String :=
  ("PDF: " ++ pdf_path ++ "\n" ++ "Total pages: " ++ toString total_pages ++ "\n")
    ++ ("Conversion completed" ++ "\n")

/-- A sequence of runs over the same work-unit directory: each run carries
its mode (`true` = resume), performs rasterization exactly when
`need_convert` says so, and in that case rewrites the conversion log.
Returns how many runs rasterized, and the final log state. -/
def raster_runs (pdf_path : String) (total_pages : Nat) :
    List Bool → Option String → Nat × Option String
  | [], log => (0, log)
  | mode :: rest, log =>
    if need_convert mode log then
      let r := raster_runs pdf_path total_pages rest
        (some (mkConversionLog pdf_path total_pages))
      (r.1 + 1, r.2)
    else raster_runs pdf_path total_pages rest log

/-! ## Parallel Page Exporter (`save_images_with_progress`, lines 71-99)

`max_workers` models line 76. `sliceStarts n c` models `range(0, n, c)` for
`c > 0`; the source raises `ValueError` when the step is `0` (which happens
exactly when the image list is empty), modelled by the `none` result.
`idxFrom s chunk` models the writes of one worker: `enumerate(chunk)` pairs
each image with its offset `j`, and the file written is
`scan_{start_idx + j}.png` (lines 84-87). The result lists, per worker in
chunk order, the (global index, image) pairs that worker writes. -/

def max_workers (cpu_count : Nat) : Nat :=
  max 1 (cpu_count - 1)

def sliceStarts (n c : Nat) : List Nat :=
  (List.range ((n + c - 1) / c)).map (· * c)

def idxFrom {α : Type u} (k : Nat) : List α → List (Nat × α)
  | [] => []
  | a :: as => (k, a) :: idxFrom (k + 1) as

def save_images_with_progress {α : Type u} (images : List α) (w : Nat) :
    Option (List (List (Nat × α))) :=
  let total_pages := images.length
  let chunk_size := (total_pages + w - 1) / w
  if chunk_size = 0 then none
  else
    some ((sliceStarts total_pages chunk_size).map
      (fun s => idxFrom s ((images.drop s).take chunk_size)))

/-! ## Batch Controller, resume mode (`workflow`, lines 515-552)

Each first-level subdirectory is described by its `.pdf` file names, its
`.png` count, and the raw behaviour of the `process_single_pdf` call on it:
`.ok b` is a normal boolean return, `.error e` an exception escaping the
`try` body — which the handler at lines 506-508 converts to `False`, so the
call itself always returns a boolean. -/

def process_single_pdf_total (body : Except String Bool) : Bool :=
  match body with
  | .ok b => b
  | .error _ => false

structure SubDir : Type where
  pdf_files : List String
  png_count : Nat
  run : Except String Bool

/-- The resume-mode loop of `workflow` (lines 527-546): subdirectories with
no PDF file are skipped with a logged notice (`continue`, lines 532-535);
otherwise the PNG count is accumulated, the unit is processed, and the
processed/valid counters advance. Returns
`(processed_dirs, valid_handbooks, total_pages)`. -/
def workflow_resume : List SubDir → Nat × Nat × Nat
  | [] => (0, 0, 0)
  | sd :: rest =>
    let r := workflow_resume rest
    if sd.pdf_files.isEmpty then r
    else
      (r.1 + 1,
       r.2.1 + (if process_single_pdf_total sd.run then 1 else 0),
       r.2.2 + sd.png_count)

/-! ## The spec's staleness formula, and concrete work units

`spec_delta` is a second, clearly separated definition that follows the
SPEC's words (`delta = |L_a − L_d| / max(L_a, L_d, 1) * 100`) rather than
the source; it exists only to be compared against the source formula
`line_diff_percent`. -/

def spec_delta (zh_lines jp_lines : Nat) : ℚ :=
  |(jp_lines : ℚ) - (zh_lines : ℚ)| /
    max (max (jp_lines : ℚ) (zh_lines : ℚ)) 1 * 100

/-- A unit whose only two pages need processing and fail OCR. -/
def c3_unit : UnitInput :=
  ⟨[(none, ⟨none, .ok "x"⟩), (some " \n", ⟨none, .exn⟩)], .fields "U" "D", some "z"⟩

/-- A unit whose single page formats to the `EMPTY_PAGE` sentinel. -/
def c4_unit : UnitInput :=
  ⟨[(none, ⟨some "ページ", .ok "EMPTY_PAGE"⟩)], .fields "U" "D", none⟩

/-- A cached page artifact with 13 non-blank lines. -/
def c5_jp : String := String.join (List.replicate 12 "a\n") ++ "a"

/-- A persisted translation with 11 non-blank lines. -/
def c5_zh : String := String.join (List.replicate 10 "b\n") ++ "b"

/-- A unit whose single page is a valid cache hit (13 non-blank lines of
aggregate) with a persisted 11-line translation. -/
def c5_unit : UnitInput :=
  ⟨[(some c5_jp, ⟨none, .exn⟩)], .fields "U" "D", some c5_zh⟩

/-- A unit with one freshly converted page and a persisted translation whose
non-blank line count equals the aggregate's (delta 0). -/
def c6_unit : UnitInput :=
  ⟨[(none, ⟨some "t", .ok "hello"⟩)], .fields "U" "D", some "你好"⟩

/-- Five pages: indices 0, 2, 4 are valid cache hits, indices 1 and 3 are
absent and freshly converted. The cached pages' oracles are failing on
purpose: they must never be consulted. -/
def c7_pages : List (Option String × PageOracle) :=
  [(some "P0", ⟨none, .exn⟩),
   (none, ⟨some "t1", .ok "N1"⟩),
   (some "P2", ⟨none, .exn⟩),
   (none, ⟨some "t3", .ok "N3"⟩),
   (some "P4", ⟨none, .exn⟩)]

/-! ## Supporting lemmas -/

theorem pageStep_eq (art : Option String) (o : PageOracle) (acc : LoopAcc) :
    pageStep art o acc =
      (⟨acc.md_content ++ page_contribution art o,
        acc.need_translate || page_fresh art o,
        acc.ocr_error_count + (if page_fails art o then 1 else 0)⟩,
       page_artifact_after art o, page_trace art o) := by
  rcases art with _ | c <;>
    rcases o with ⟨_ | t, s | _⟩ <;>
      simp only [pageStep, page_contribution, page_fails, page_fresh,
        page_artifact_after, page_trace, need_process, Option.isSome] <;>
    first
    | (rcases acc with ⟨m, nt, ec⟩
       by_cases hs : s = "" <;>
         by_cases hc : py_strip c == "" <;>
           simp_all [pageStep, need_process, String.append_assoc])
    | (rcases acc with ⟨m, nt, ec⟩
       by_cases hs : s = "" <;> simp_all [String.append_assoc])
    | (rcases acc with ⟨m, nt, ec⟩
       by_cases hc : py_strip c == "" <;> simp_all [String.append_assoc])
    | (rcases acc with ⟨m, nt, ec⟩; simp_all [String.append_assoc])

theorem foldl_append_shift (l : List String) (a b : String) :
    l.foldl (· ++ ·) (a ++ b) = a ++ l.foldl (· ++ ·) b := by
  induction l generalizing b with
  | nil => rfl
  | cons x xs ih => simp only [List.foldl_cons, String.append_assoc, ih]

theorem join_cons_str (s : String) (l : List String) :
    String.join (s :: l) = s ++ String.join l := by
  have h := foldl_append_shift l s ""
  simpa [String.join] using h

theorem pageLoop_eq (ps : List (Option String × PageOracle)) (acc : LoopAcc) :
    pageLoop ps acc =
      (⟨acc.md_content ++ String.join (ps.map fun p => page_contribution p.1 p.2),
        acc.need_translate || ps.any (fun p => page_fresh p.1 p.2),
        acc.ocr_error_count + (ps.filter (fun p => page_fails p.1 p.2)).length⟩,
       ps.map (fun p => page_artifact_after p.1 p.2),
       ps.map (fun p => page_trace p.1 p.2)) := by
  induction ps generalizing acc with
  | nil =>
    simp [pageLoop, String.join]
  | cons p ps ih =>
    rcases p with ⟨art, o⟩
    simp only [pageLoop, pageStep_eq, ih, List.map_cons, List.any_cons,
      List.filter_cons, join_cons_str]
    by_cases hf : page_fails art o <;>
      simp [hf, String.append_assoc, Bool.or_assoc, Nat.add_assoc,
        Nat.add_comm, Nat.add_left_comm]


theorem isPrefixOf_append_self (l b : List Char) : l.isPrefixOf (l ++ b) = true := by
  induction l with
  | nil => simp [List.isPrefixOf]
  | cons a as ih => simp [List.isPrefixOf, ih]

theorem listHasSub_append (A needle B : List Char) :
    listHasSub needle (A ++ (needle ++ B)) = true := by
  induction A with
  | nil =>
    rcases needle with _ | ⟨n, ns⟩
    · rcases B with _ | ⟨b, bs⟩ <;> simp [listHasSub]
    · simp [listHasSub, isPrefixOf_append_self]
  | cons a A ih =>
    simp [listHasSub, ih]

theorem mkConversionLog_hasSentinel (p : String) (n : Nat) :
    strHasSub (mkConversionLog p n) "Conversion completed" = true := by
  unfold strHasSub mkConversionLog
  rw [String.data_append, String.data_append]
  exact listHasSub_append _ _ _

theorem need_convert_false_iff (resume_mode : Bool) (log : Option String) :
    need_convert resume_mode log = false ↔
      resume_mode = true ∧
        ∃ c, log = some c ∧ strHasSub c "Conversion completed" = true := by
  rcases log with _ | c <;> simp [need_convert]

theorem raster_runs_completed (p : String) (n : Nat) (ms : List Bool)
    (h : ∀ m ∈ ms, m = true) :
    raster_runs p n ms (some (mkConversionLog p n)) =
      (0, some (mkConversionLog p n)) := by
  induction ms with
  | nil => rfl
  | cons m ms ih =>
    have hm : m = true := h m (List.mem_cons_self m ms)
    subst hm
    have hskip : need_convert true (some (mkConversionLog p n)) = false := by
      simp [need_convert, mkConversionLog_hasSentinel]
    simp only [raster_runs, hskip, Bool.false_eq_true, if_false]
    exact ih fun m hm => h m (List.mem_cons_of_mem _ hm)

/-! Lemmas about the exporter's chunking. -/

theorem sliceStarts_zero (c : Nat) (hc : 0 < c) : sliceStarts 0 c = [] := by
  unfold sliceStarts
  have h : (c - 1) / c = 0 := Nat.div_eq_of_lt (by omega)
  simp [h]

theorem sliceStarts_pos (n c : Nat) (hc : 0 < c) (hn : 0 < n) :
    sliceStarts n c = 0 :: (sliceStarts (n - c) c).map (· + c) := by
  unfold sliceStarts
  have h1 : (n + c - 1) / c = (n - c + c - 1) / c + 1 := by
    rcases le_or_lt n c with h | h
    · have hnc : n - c = 0 := by omega
      have e1 : n + c - 1 = (n - 1) + c := by omega
      have e2 : (n - 1) / c = 0 := Nat.div_eq_of_lt (by omega)
      have e3 : (0 + c - 1) / c = 0 := Nat.div_eq_of_lt (by omega)
      rw [hnc, e1, Nat.add_div_right _ hc, e2, e3]
    · have e1 : n + c - 1 = (n - 1) + c := by omega
      have e2 : n - c + c - 1 = n - 1 := by omega
      rw [e1, e2, Nat.add_div_right _ hc]
  rw [h1, List.range_succ_eq_map]
  simp [List.map_map, Function.comp, Nat.succ_mul, Nat.add_comm]

theorem idxFrom_length {α : Type u} (k : Nat) (l : List α) :
    (idxFrom k l).length = l.length := by
  induction l generalizing k with
  | nil => rfl
  | cons a as ih => simp [idxFrom, ih]

theorem idxFrom_append {α : Type u} (k : Nat) (a b : List α) :
    idxFrom k (a ++ b) = idxFrom k a ++ idxFrom (k + a.length) b := by
  induction a generalizing k with
  | nil => simp [idxFrom]
  | cons x xs ih =>
    simp [idxFrom, ih, Nat.add_comm, Nat.add_assoc, Nat.add_left_comm]

theorem chunk_writes_eq {α : Type u} (c : Nat) (hc : 0 < c) :
    ∀ (n : Nat) (l : List α), l.length = n → ∀ ofs,
      ((sliceStarts l.length c).map
        (fun s => idxFrom (ofs + s) ((l.drop s).take c))).flatten = idxFrom ofs l := by
  intro n
  induction n using Nat.strong_induction_on with
  | _ n ih =>
    intro l hl ofs
    rcases Nat.eq_zero_or_pos l.length with h0 | hpos
    · have : l = [] := List.length_eq_zero.mp h0
      subst this
      simp [sliceStarts_zero c hc, idxFrom]
    · rw [sliceStarts_pos _ _ hc hpos]
      simp only [List.map_cons, List.flatten_cons, List.map_map]
      have hrest :
          ((sliceStarts (l.length - c) c).map
            ((fun s => idxFrom (ofs + s) ((l.drop s).take c)) ∘ (· + c))).flatten
            = idxFrom (ofs + c) (l.drop c) := by
        have hlen : (l.drop c).length = l.length - c := List.length_drop c l
        have hlt : l.length - c < n := by omega
        have hih := ih (l.length - c) hlt (l.drop c) (by omega) (ofs + c)
        rw [hlen] at hih
        rw [← hih]
        congr 1
        apply List.map_congr_left
        intro s _
        simp only [Function.comp]
        rw [List.drop_drop]
        simp [Nat.add_comm, Nat.add_left_comm]
      rw [hrest]
      have hsplit := idxFrom_append ofs (l.take c) (l.drop c)
      rw [List.take_append_drop] at hsplit
      rcases le_or_lt c l.length with hcle | hclt
      · have : (l.take c).length = c := by
          rw [List.length_take]
          omega
        rw [hsplit, this]
        simp
      · have hdrop : l.drop c = [] := List.drop_eq_nil_of_le (by omega)
        rw [hsplit, hdrop]
        simp [idxFrom]

theorem empty_append_str (s : String) : "" ++ s = s := rfl

theorem join_eq_empty_of_all (l : List String) (h : ∀ s ∈ l, s = "") :
    String.join l = "" := by
  induction l with
  | nil => rfl
  | cons s l ih =>
    rw [join_cons_str, h s (List.mem_cons_self s l),
      ih fun s hs => h s (List.mem_cons_of_mem _ hs)]
    rfl

/-- Closed form of `process_single_pdf` on the renamed-by-identity path. -/
theorem process_single_pdf_renamed (u : UnitInput) (name date : String)
    (ha : u.analyze = .fields name date)
    (herr : (pageLoop u.pages ⟨"", false, 0⟩).1.ocr_error_count ≠ u.pages.length)
    (hmd : py_strip (pageLoop u.pages ⟨"", false, 0⟩).1.md_content ≠ "") :
    process_single_pdf u =
      ⟨.renamed name date, (pageLoop u.pages ⟨"", false, 0⟩).1,
       (pageLoop u.pages ⟨"", false, 0⟩).2.1,
       (pageLoop u.pages ⟨"", false, 0⟩).2.2,
       true,
       match u.zh_artifact with
       | some z =>
         if line_diff_percent (nonBlankLines z)
             (nonBlankLines (pageLoop u.pages ⟨"", false, 0⟩).1.md_content) > 15
         then true
         else (pageLoop u.pages ⟨"", false, 0⟩).1.need_translate
       | none => true⟩ := by
  simp only [process_single_pdf]
  rw [if_neg herr, if_neg hmd, ha]

/-! ## Claims -/

/-- **C1.** For every page index in a WorkUnit, the page is re-converted
(the recognition call is issued, and the formatting call is issued exactly
when recognition succeeds) if and only if its persisted markdown artifact is
absent or empty after trimming whitespace (`need_process`); if the artifact
exists and is non-empty after trimming it is reused (its trimmed content is
appended) with no external call; and if it exists but is empty it is deleted
and treated exactly as absent. -/
theorem claim_C1 (art : Option String) (o : PageOracle) (acc : LoopAcc) :
    ((pageStep art o acc).2.2.ocr_called = need_process art) ∧
    ((pageStep art o acc).2.2.fmt_called = (need_process art && o.ocr.isSome)) ∧
    (∀ c, art = some c → py_strip c ≠ "" →
      pageStep art o acc =
        ({ acc with md_content := acc.md_content ++ py_strip c ++ "\n\n" },
          some c, ⟨false, false⟩)) ∧
    (∀ c, art = some c → py_strip c = "" →
      pageStep art o acc = pageStep none o acc) := by
  refine ⟨?_, ?_, ?_, ?_⟩
  · simp [pageStep_eq, page_trace]
  · simp [pageStep_eq, page_trace]
  · intro c hc hne
    subst hc
    have hnp : need_process (some c) = false := by
      simp [need_process, hne]
    simp [pageStep, hnp]
  · intro c hc he
    subst hc
    simp [pageStep, need_process, he]

/-- Witness for C1 at concrete inputs: a whitespace-only artifact behaves
exactly like an absent one, and a valid artifact is reused verbatim. -/
theorem claim_C1_witness :
    (pageStep (some " \n") ⟨some "t", .ok "X"⟩ ⟨"", false, 0⟩ =
      pageStep none ⟨some "t", .ok "X"⟩ ⟨"", false, 0⟩) ∧
    (pageStep (some "kept") ⟨some "t", .ok "X"⟩ ⟨"", false, 0⟩ =
      ({ md_content := "" ++ py_strip "kept" ++ "\n\n", need_translate := false,
         ocr_error_count := 0 }, some "kept", ⟨false, false⟩)) := by
  constructor
  · exact (claim_C1 (some " \n") ⟨some "t", .ok "X"⟩ ⟨"", false, 0⟩).2.2.2
      " \n" rfl (by decide)
  · exact (claim_C1 (some "kept") ⟨some "t", .ok "X"⟩ ⟨"", false, 0⟩).2.2.1
      "kept" rfl (by decide)

/-- **C2, counterexample.** Presence of the `pdf2md.log` marker file is not
sufficient for skipping rasterization: on a resume run whose log file exists
but lacks the `"Conversion completed"` sentinel, and on a non-resume run
whose log file exists with the sentinel, `need_convert` still says to
rasterize. -/
theorem claim_C2_counterexample :
    need_convert true (some "PDF: a\n") = true ∧
    need_convert false (some (mkConversionLog "a" 3)) = true := by
  constructor <;> decide

/-- **C2, amended.** Rasterization is skipped iff the run is in resume mode,
the log file exists, and its content contains the `"Conversion completed"`
sentinel; given a log written by a completed conversion, every later resume
run skips rasterization (so over a fresh run followed by resume runs it
executes exactly once). -/
theorem claim_C2_amended :
    (∀ (resume_mode : Bool) (log : Option String),
      need_convert resume_mode log = false ↔
        resume_mode = true ∧
          ∃ c, log = some c ∧ strHasSub c "Conversion completed" = true) ∧
    (∀ (p : String) (n : Nat) (ms : List Bool), (∀ m ∈ ms, m = true) →
      (raster_runs p n ms (some (mkConversionLog p n))).1 = 0) ∧
    (∀ (p : String) (n : Nat) (ms : List Bool), (∀ m ∈ ms, m = true) →
      (raster_runs p n (false :: ms) none).1 = 1) := by
  refine ⟨need_convert_false_iff, ?_, ?_⟩
  · intro p n ms h
    rw [raster_runs_completed p n ms h]
  · intro p n ms h
    have hconv : need_convert false (none : Option String) = true := rfl
    simp only [raster_runs, hconv, if_true]
    rw [raster_runs_completed p n ms h]

/-- Witness for C2 (amended) on concrete run sequences. -/
theorem claim_C2_amended_witness :
    (raster_runs "doc.pdf" 3 [true, true] (some (mkConversionLog "doc.pdf" 3))).1 = 0 ∧
    (raster_runs "doc.pdf" 3 [false, true, true] none).1 = 1 := by
  constructor
  · exact claim_C2_amended.2.1 "doc.pdf" 3 [true, true] (by simp)
  · exact claim_C2_amended.2.2 "doc.pdf" 3 [true, true] (by simp)

/-- **C3.** A unit all of whose pages need processing and fail recognition
is quarantined as `_ocr_failed`: no later stage runs (the identity analyzer
and the translator are never called), and the unit is never renamed by
identity nor sent to any other quarantine bucket. -/
theorem claim_C3 (u : UnitInput)
    (h : ∀ p ∈ u.pages, need_process p.1 = true ∧ p.2.ocr = none) :
    (process_single_pdf u).outcome = .quarantined "_ocr_failed" ∧
    (process_single_pdf u).analyze_called = false ∧
    (process_single_pdf u).translate_called = false ∧
    (∀ name date, (process_single_pdf u).outcome ≠ .renamed name date) ∧
    (process_single_pdf u).outcome ≠ .quarantined "_no_content" ∧
    (process_single_pdf u).outcome ≠ .quarantined "_can_not_analyze" := by
  have hfail : ∀ p ∈ u.pages, page_fails p.1 p.2 = true := by
    intro p hp
    rcases h p hp with ⟨h1, h2⟩
    simp [page_fails, h1, h2]
  have hcontrib : ∀ p ∈ u.pages, page_contribution p.1 p.2 = "" := by
    intro p hp
    rcases h p hp with ⟨h1, h2⟩
    simp [page_contribution, h1, h2]
  have hfresh : (u.pages.any fun p => page_fresh p.1 p.2) = false := by
    rw [List.any_eq_false]
    intro p hp
    rcases h p hp with ⟨h1, h2⟩
    simp [page_fresh, h1, h2]
  have hjoin : String.join (u.pages.map fun p => page_contribution p.1 p.2) = "" := by
    apply join_eq_empty_of_all
    intro s hs
    rcases List.mem_map.mp hs with ⟨p, hp, hps⟩
    rw [← hps]
    exact hcontrib p hp
  have hfl : (u.pages.filter fun p => page_fails p.1 p.2) = u.pages :=
    List.filter_eq_self.mpr hfail
  have hmain : (process_single_pdf u).outcome = .quarantined "_ocr_failed" ∧
      (process_single_pdf u).analyze_called = false ∧
      (process_single_pdf u).translate_called = false := by
    simp [process_single_pdf, pageLoop_eq, hjoin, hfl, hfresh]
  refine ⟨hmain.1, hmain.2.1, hmain.2.2, ?_, ?_, ?_⟩
  · intro name date
    rw [hmain.1]
    exact fun hcon => Outcome.noConfusion hcon
  · rw [hmain.1]
    decide
  · rw [hmain.1]
    decide

/-- Witness for C3: a concrete two-page unit, both pages failing OCR. -/
theorem claim_C3_witness :
    (process_single_pdf c3_unit).outcome = .quarantined "_ocr_failed" ∧
    (process_single_pdf c3_unit).analyze_called = false ∧
    (process_single_pdf c3_unit).translate_called = false ∧
    (process_single_pdf c3_unit).outcome ≠ .renamed "U" "D" := by
  have h := claim_C3 c3_unit (by decide)
  exact ⟨h.1, h.2.1, h.2.2.1, h.2.2.2.1 "U" "D"⟩

/-- **C4, counterexample.** A page whose formatting result is the
`EMPTY_PAGE` sentinel does not increment the failure counter, but it does
NOT contribute zero lines to the aggregate: the literal sentinel text is
appended (one non-blank line) and persisted as the page artifact, because
`process_single_pdf` never tests for the sentinel. -/
theorem claim_C4_counterexample :
    (process_single_pdf c4_unit).acc.md_content = "EMPTY_PAGE\n\n" ∧
    nonBlankLines (process_single_pdf c4_unit).acc.md_content = 1 ∧
    ¬ nonBlankLines (process_single_pdf c4_unit).acc.md_content = 0 ∧
    (process_single_pdf c4_unit).acc.ocr_error_count = 0 ∧
    (process_single_pdf c4_unit).artifacts = [some "EMPTY_PAGE"] := by
  refine ⟨by decide, by decide, by decide, by decide, by decide⟩

/-- **C4, amended.** A page whose formatting result is the `EMPTY_PAGE`
sentinel is treated as a successfully processed page: the failure counter is
not incremented; but the sentinel is handled like ordinary content — it is
persisted as the page artifact and appended to the aggregate, contributing
its own non-blank line rather than zero lines. -/
theorem claim_C4_amended (art : Option String) (t : String) (acc : LoopAcc)
    (h : need_process art = true) :
    pageStep art ⟨some t, .ok "EMPTY_PAGE"⟩ acc =
      ({ acc with
          md_content := acc.md_content ++ "EMPTY_PAGE" ++ "\n\n"
          need_translate := true }, some "EMPTY_PAGE", ⟨true, true⟩) := by
  simp [pageStep, h]

/-- Witness for C4 (amended) on a concrete absent page. -/
theorem claim_C4_amended_witness :
    pageStep none ⟨some "t", .ok "EMPTY_PAGE"⟩ ⟨"", false, 0⟩ =
      ({ md_content := "" ++ "EMPTY_PAGE" ++ "\n\n", need_translate := true,
          ocr_error_count := 0 }, some "EMPTY_PAGE", ⟨true, true⟩) :=
  claim_C4_amended none "t" ⟨"", false, 0⟩ (by decide)

/-- **C5, counterexample.** The staleness delta of the source is NOT the
spec's `|L_a − L_d| / max(L_a, L_d, 1) * 100`: with an aggregate of 13
non-blank lines and a persisted translation of 11, the spec formula gives
`2/13·100 ≈ 15.4 > 15` (stale, regenerate), yet the code — which divides by
`max(L_d, L_a) + 1` — computes `2/14·100 ≈ 14.3 ≤ 15` and does not call the
translator. -/
theorem claim_C5_counterexample :
    (process_single_pdf c5_unit).outcome = .renamed "U" "D" ∧
    nonBlankLines (process_single_pdf c5_unit).acc.md_content = 13 ∧
    nonBlankLines c5_zh = 11 ∧
    spec_delta (nonBlankLines c5_zh)
      (nonBlankLines (process_single_pdf c5_unit).acc.md_content) > 15 ∧
    (process_single_pdf c5_unit).translate_called = false := by
  have herr : (pageLoop c5_unit.pages ⟨"", false, 0⟩).1.ocr_error_count ≠
      c5_unit.pages.length := by decide
  have hmd : py_strip (pageLoop c5_unit.pages ⟨"", false, 0⟩).1.md_content ≠ "" := by
    decide
  have hloopacc : (pageLoop c5_unit.pages ⟨"", false, 0⟩).1 =
      ⟨c5_jp ++ "\n\n", false, 0⟩ := by decide
  have hres := process_single_pdf_renamed c5_unit "U" "D" rfl herr hmd
  rw [hloopacc] at hres
  have hnb : nonBlankLines (c5_jp ++ "\n\n") = 13 := by decide
  have hzb : nonBlankLines c5_zh = 11 := by decide
  have hacc : (process_single_pdf c5_unit).acc.md_content = c5_jp ++ "\n\n" := by
    rw [hres]
  refine ⟨by rw [hres], ?_, hzb, ?_, ?_⟩
  · rw [hacc, hnb]
  · rw [hacc, hnb, hzb]
    unfold spec_delta
    norm_num
  · rw [hres]
    show (match c5_unit.zh_artifact with
      | some z =>
        if line_diff_percent (nonBlankLines z) (nonBlankLines (c5_jp ++ "\n\n")) > 15
        then true else false
      | none => true) = false
    show (if line_diff_percent (nonBlankLines c5_zh) (nonBlankLines (c5_jp ++ "\n\n")) > 15
      then true else false) = false
    rw [hzb, hnb, if_neg]
    unfold line_diff_percent
    norm_num

/-- **C5, amended.** The staleness delta of the source is
`|L_d − L_a| / (max(L_d, L_a) + 1) * 100` over non-blank line counts,
compared against the hard-coded literal 15 in `process_single_pdf` (the
review pass instead uses `|L_d − L_a| / L_a * 100` over raw line counts
against a hard-coded 20 — the thresholds are constants, not configuration);
with an aggregate of 100 non-blank lines, an existing 80-line artifact
triggers regeneration and an 88-line one does not. -/
theorem claim_C5_amended :
    (∀ zh_lines jp_lines : Nat,
      line_diff_percent zh_lines jp_lines =
        |(zh_lines : ℚ) - (jp_lines : ℚ)| /
          ((max zh_lines jp_lines : Nat) + 1 : ℚ) * 100) ∧
    line_diff_percent 80 100 > 15 ∧
    ¬ line_diff_percent 88 100 > 15 ∧
    (∀ (u : UnitInput) (name date z : String),
      u.analyze = .fields name date →
      u.zh_artifact = some z →
      (pageLoop u.pages ⟨"", false, 0⟩).1.ocr_error_count ≠ u.pages.length →
      py_strip (pageLoop u.pages ⟨"", false, 0⟩).1.md_content ≠ "" →
      (process_single_pdf u).translate_called =
        if line_diff_percent (nonBlankLines z)
            (nonBlankLines (process_single_pdf u).acc.md_content) > 15
        then true
        else (process_single_pdf u).acc.need_translate) ∧
    (∀ (z : String) (jp_line_count : Nat), 0 < jp_line_count →
      (review_needs_translation (some z) jp_line_count = false ↔
        |(review_line_count z : ℚ) - (jp_line_count : ℚ)| /
          (jp_line_count : ℚ) * 100 ≤ 20)) := by
  refine ⟨?_, ?_, ?_, ?_, ?_⟩
  · intro zh jp
    unfold line_diff_percent
    rw [max_add_add_right, Nat.cast_max]
  · unfold line_diff_percent; norm_num
  · unfold line_diff_percent; norm_num
  · intro u name date z ha hz herr hmd
    have hres := process_single_pdf_renamed u name date ha herr hmd
    have hacc : (process_single_pdf u).acc = (pageLoop u.pages ⟨"", false, 0⟩).1 := by
      rw [hres]
    rw [hacc, hres, hz]
  · intro z jp hjp
    simp only [review_needs_translation, if_pos hjp]
    by_cases hle : |(review_line_count z : ℚ) - (jp : ℚ)| / (jp : ℚ) * 100 ≤ 20 <;>
      simp [hle]

/-- Witness for C5 (amended) at a concrete unit and a concrete review
check. -/
theorem claim_C5_amended_witness :
    ((process_single_pdf c6_unit).translate_called =
      if line_diff_percent (nonBlankLines "你好")
          (nonBlankLines (process_single_pdf c6_unit).acc.md_content) > 15
      then true
      else (process_single_pdf c6_unit).acc.need_translate) ∧
    (review_needs_translation (some "a\nb") 2 = false ↔
      |(review_line_count "a\nb" : ℚ) - (2 : ℚ)| / (2 : ℚ) * 100 ≤ 20) := by
  constructor
  · exact claim_C5_amended.2.2.2.1 c6_unit "U" "D" "你好" rfl rfl
      (by decide) (by decide)
  · exact claim_C5_amended.2.2.2.2 "a\nb" 2 (by decide)

/-- **C6, counterexample.** The translated artifact is regenerated even when
it is not stale: here it exists and its line-count delta is 0 (well under
the threshold), yet the translator is called, because a page was freshly
converted in this run (`need_translate` was set at line 420). -/
theorem claim_C6_counterexample :
    (process_single_pdf c6_unit).translate_called = true ∧
    c6_unit.zh_artifact = some "你好" ∧
    ¬ line_diff_percent (nonBlankLines "你好")
        (nonBlankLines (process_single_pdf c6_unit).acc.md_content) > 15 := by
  have herr : (pageLoop c6_unit.pages ⟨"", false, 0⟩).1.ocr_error_count ≠
      c6_unit.pages.length := by decide
  have hmd : py_strip (pageLoop c6_unit.pages ⟨"", false, 0⟩).1.md_content ≠ "" := by
    decide
  have hloopacc : (pageLoop c6_unit.pages ⟨"", false, 0⟩).1 =
      ⟨"hello\n\n", true, 0⟩ := by decide
  have hres := process_single_pdf_renamed c6_unit "U" "D" rfl herr hmd
  rw [hloopacc] at hres
  have hacc : (process_single_pdf c6_unit).acc.md_content = "hello\n\n" := by
    rw [hres]
  refine ⟨?_, rfl, ?_⟩
  · rw [hres]
    show (if line_diff_percent (nonBlankLines "你好") (nonBlankLines "hello\n\n") > 15
      then true else true) = true
    exact ite_self true
  · rw [hacc]
    rw [show nonBlankLines "你好" = 1 by decide, show nonBlankLines "hello\n\n" = 1 by decide]
    unfold line_diff_percent
    norm_num

/-- **C6, amended.** For a unit that reaches the rename stage, the
translated artifact is regenerated if and only if it is stale — absent, or
present with a line-count delta exceeding the threshold — **or** at least
one page was freshly converted with non-empty output in this run. -/
theorem claim_C6_amended (u : UnitInput) (name date : String)
    (ha : u.analyze = .fields name date)
    (herr : (pageLoop u.pages ⟨"", false, 0⟩).1.ocr_error_count ≠ u.pages.length)
    (hmd : py_strip (pageLoop u.pages ⟨"", false, 0⟩).1.md_content ≠ "") :
    (process_single_pdf u).translate_called = true ↔
      (u.zh_artifact = none ∨
       (∃ z, u.zh_artifact = some z ∧
         line_diff_percent (nonBlankLines z)
           (nonBlankLines (process_single_pdf u).acc.md_content) > 15) ∨
       (u.pages.any fun p => page_fresh p.1 p.2) = true) := by
  have hres := process_single_pdf_renamed u name date ha herr hmd
  have hacc : (process_single_pdf u).acc = (pageLoop u.pages ⟨"", false, 0⟩).1 := by
    rw [hres]
  have hnt : (pageLoop u.pages ⟨"", false, 0⟩).1.need_translate =
      (u.pages.any fun p => page_fresh p.1 p.2) := by
    rw [pageLoop_eq]
    exact Bool.false_or _
  rcases hz : u.zh_artifact with _ | z
  · rw [hres]
    simp [hz]
  · rw [hres]
    simp only [hz, hacc]
    by_cases hgt : line_diff_percent (nonBlankLines z)
        (nonBlankLines (pageLoop u.pages ⟨"", false, 0⟩).1.md_content) > 15
    · simp [hgt]
    · simp [hgt, hnt]

/-- Witness for C6 (amended) at a concrete unit. -/
theorem claim_C6_amended_witness :
    (process_single_pdf c6_unit).translate_called = true ↔
      (c6_unit.zh_artifact = none ∨
       (∃ z, c6_unit.zh_artifact = some z ∧
         line_diff_percent (nonBlankLines z)
           (nonBlankLines (process_single_pdf c6_unit).acc.md_content) > 15) ∨
       (c6_unit.pages.any fun p => page_fresh p.1 p.2) = true) :=
  claim_C6_amended c6_unit "U" "D" rfl (by decide) (by decide)

/-- **C7.** The aggregate is the fold of the per-page contributions in
ascending page order, regardless of which pages are cache hits; in the
concrete five-page scenario with pages 0, 2, 4 present-valid and 1, 3
absent, only pages 1 and 3 issue recognition calls and the aggregate is all
five pages' contents concatenated in index order. -/
theorem claim_C7 :
    (∀ ps : List (Option String × PageOracle),
      ((pageLoop ps ⟨"", false, 0⟩).1).md_content =
        String.join (ps.map fun p => page_contribution p.1 p.2)) ∧
    ((pageLoop c7_pages ⟨"", false, 0⟩).1).md_content =
      "P0\n\nN1\n\nP2\n\nN3\n\nP4\n\n" ∧
    ((pageLoop c7_pages ⟨"", false, 0⟩).2.2).map (fun tr => tr.ocr_called) =
      [false, true, false, true, false] := by
  refine ⟨?_, by decide, by decide⟩
  intro ps
  rw [pageLoop_eq]
  exact empty_append_str _

/-- **C8, counterexample.** On an empty image list the exporter does not
produce zero indexed files: `chunk_size` is `0` and `range(0, 0, 0)` raises
`ValueError` (modelled by the `none` result), so the claim's "for every list
of N page images" fails at N = 0. -/
theorem claim_C8_counterexample :
    save_images_with_progress ([] : List Nat) 1 = none ∧
    ¬ ∃ ws : List (List (Nat × Nat)),
        save_images_with_progress ([] : List Nat) 1 = some ws ∧
        ws.flatten = idxFrom 0 ([] : List Nat) := by
  refine ⟨rfl, ?_⟩
  rintro ⟨ws, h, -⟩
  rw [show save_images_with_progress ([] : List Nat) 1 = none from rfl] at h
  exact Option.noConfusion h

/-- **C8, amended.** For every NONEMPTY list of `N` page images and worker
bound `W ≥ 1` (default `max(1, cpu_count − 1)`), the exporter partitions the
images into contiguous chunks of size `⌈N/W⌉` (every chunk but possibly the
last has exactly that size, none exceeds it), and the concatenation of all
workers' writes is exactly `(0, images[0]), …, (N−1, images[N−1])`: exactly
`N` files carrying the global zero-based indices, each image written exactly
once by exactly one worker, no index written twice. -/
theorem claim_C8_amended {α : Type u} (images : List α) (w : Nat)
    (hw : 0 < w) (himg : images ≠ []) :
    ∃ ws : List (List (Nat × α)),
      save_images_with_progress images w = some ws ∧
      ws.flatten = idxFrom 0 images ∧
      (∀ b ∈ ws, b.length ≤ (images.length + w - 1) / w) ∧
      (∀ i, ∀ h : i + 1 < ws.length,
        (ws.get ⟨i, Nat.lt_of_succ_lt h⟩).length = (images.length + w - 1) / w) := by
  have hnpos : 0 < images.length := List.length_pos.mpr himg
  have hc : 0 < (images.length + w - 1) / w := by
    have h1 : 1 * w ≤ images.length + w - 1 := by omega
    exact (Nat.le_div_iff_mul_le hw).mpr h1
  refine ⟨(sliceStarts images.length ((images.length + w - 1) / w)).map
      (fun s => idxFrom s ((images.drop s).take ((images.length + w - 1) / w))),
    ?_, ?_, ?_, ?_⟩
  · unfold save_images_with_progress
    rw [if_neg (by omega)]
  · have h := chunk_writes_eq ((images.length + w - 1) / w) hc
      images.length images rfl 0
    rw [← h]
    congr 1
    apply List.map_congr_left
    intro s _
    rw [Nat.zero_add]
  · intro b hb
    rcases List.mem_map.mp hb with ⟨s, hs, hbs⟩
    rw [← hbs, idxFrom_length, List.length_take]
    exact min_le_left _ _
  · intro i h
    have hKlen :
        ((sliceStarts images.length ((images.length + w - 1) / w)).map
          (fun s => idxFrom s
            ((images.drop s).take ((images.length + w - 1) / w)))).length =
        (images.length + ((images.length + w - 1) / w) - 1) /
          ((images.length + w - 1) / w) := by
      simp [sliceStarts]
    have hmul : (i + 2) * ((images.length + w - 1) / w) ≤
        images.length + ((images.length + w - 1) / w) - 1 := by
      refine (Nat.le_div_iff_mul_le hc).mp ?_
      omega
    rw [List.get_eq_getElem, List.getElem_map]
    have hsl : ∀ hj : i < (sliceStarts images.length
        ((images.length + w - 1) / w)).length,
        (sliceStarts images.length ((images.length + w - 1) / w))[i] =
          i * ((images.length + w - 1) / w) := by
      intro hj
      simp [sliceStarts]
    rw [hsl, idxFrom_length, List.length_take, List.length_drop]
    have hmul2 : i * ((images.length + w - 1) / w) +
        2 * ((images.length + w - 1) / w) ≤
        images.length + ((images.length + w - 1) / w) - 1 := by
      rw [Nat.add_mul] at hmul
      omega
    have hcle : (images.length + w - 1) / w ≤
        images.length - i * ((images.length + w - 1) / w) := by
      omega
    exact min_eq_left hcle

/-- Witness for C8 (amended): five images, two workers. -/
theorem claim_C8_amended_witness :
    ∃ ws : List (List (Nat × Nat)),
      save_images_with_progress [10, 20, 30, 40, 50] 2 = some ws ∧
      ws.flatten = idxFrom 0 [10, 20, 30, 40, 50] := by
  obtain ⟨ws, h1, h2, -, -⟩ :=
    claim_C8_amended [10, 20, 30, 40, 50] 2 (by decide) (by decide)
  exact ⟨ws, h1, h2⟩

/-- **C9.** Every failure inside the processing of one unit becomes a
quarantine rename, a counter increment, or a `False` return value and never
escapes to the batch loop: an exception escaping the `try` body is converted
to `False` by the outer handler; a per-page exception increments the error
counter; and the resume-mode batch loop visits every PDF-bearing
subdirectory no matter what each unit's processing does, skipping (not
aborting on) subdirectories with no PDF file. -/
theorem claim_C9 :
    (∀ e : String, process_single_pdf_total (.error e) = false) ∧
    (∀ (acc : LoopAcc) (t : String),
      pageStep none ⟨some t, .exn⟩ acc =
        ({ acc with ocr_error_count := acc.ocr_error_count + 1 }, none,
          ⟨true, true⟩)) ∧
    (∀ subdirs : List SubDir,
      (workflow_resume subdirs).1 =
        (subdirs.filter (fun sd => !sd.pdf_files.isEmpty)).length ∧
      (workflow_resume subdirs).2.1 =
        (subdirs.filter (fun sd =>
          !sd.pdf_files.isEmpty && process_single_pdf_total sd.run)).length ∧
      (workflow_resume subdirs).2.2 =
        (subdirs.map (fun sd =>
          if sd.pdf_files.isEmpty then 0 else sd.png_count)).sum) := by
  refine ⟨fun e => rfl, ?_, ?_⟩
  · intro acc t
    simp [pageStep, need_process]
  · intro subdirs
    induction subdirs with
    | nil => exact ⟨rfl, rfl, rfl⟩
    | cons sd rest ih =>
      rcases ih with ⟨ih1, ih2, ih3⟩
      by_cases hpdf : sd.pdf_files.isEmpty
      · have hnil : sd.pdf_files = [] := List.isEmpty_iff.mp hpdf
        refine ⟨?_, ?_, ?_⟩ <;>
          simp [workflow_resume, hpdf, hnil, ih1, ih2, ih3, List.filter_cons]
      · have hnil : ¬ sd.pdf_files = [] := by
          simpa [List.isEmpty_iff] using hpdf
        by_cases hrun : process_single_pdf_total sd.run <;>
          refine ⟨?_, ?_, ?_⟩ <;>
            simp [workflow_resume, hpdf, hnil, hrun, ih1, ih2, ih3,
              List.filter_cons, Nat.add_comm]

/-- **C10.** A unit whose directory contains zero page images runs the page
loop zero times, so the failure counter (0) equals the page count (0) and
the unit is quarantined as `_ocr_failed` with no recognition call ever
issued, regardless of the analyzer oracle or any persisted translation. -/
theorem claim_C10 (analyze : AnalyzeRes) (zh_artifact : Option String) :
    process_single_pdf ⟨[], analyze, zh_artifact⟩ =
      ⟨.quarantined "_ocr_failed", ⟨"", false, 0⟩, [], [], false, false⟩ := rfl

end Pdf2Md
